import Mathlib

/-!
Shallow embedding of the go-crypto-dashboard repository.

Source files embedded here:
* `internal/domain/models` (src/unnamed/part_000): the `CryptoPrice` and
  `CryptoBatch` entities with `Validate`, `UpdatePrice`, `AddCrypto`,
  `GetBySymbol`, `TotalValue`, `MustUpdatePrice` and `GetPriceAt`.
* `internal/infrastructure/api/coingecko.go`: `FetchCryptoPrices`
  (goroutine per ID, results/errors channels, recover of panics) and
  `GetTopNCryptos`.

Modelling conventions:
* Go `float64` prices are embedded as `Rat`; the code only compares
  prices with 0, copies them and adds them, all exact operations.
* Go errors are strings (every error in the repository is created from a
  format string); fallible operations return `Except String α` or pair
  the receiver with an `Option String`.
* `time.Now().UTC()` is passed in explicitly as a `GoTime` record; Go's
  `Format(time.RFC3339)` on a UTC time is modelled by `rfc3339Format`
  (zero-padded `YYYY-MM-DDTHH:MM:SSZ`, exactly the layout the Go standard
  library produces for a UTC time with whole seconds).
* The HTTP layer is modelled by `HttpResult`: either a transport error or
  a response carrying a status code and a body. JSON decoding by the Go
  standard library is modelled by its outcome: the body of a response is
  the decode result, `Except String β` for the target Go type `β`.
  `map[string]map[string]float64` becomes an association list
  `PriceJson`; indexing a Go map yields the zero value on a missing key,
  modelled by `mapGet`.
* A goroutine body is a function to `BodyOutcome` (send on the results
  channel, send on the errors channel, or panic); the deferred `recover`
  in `FetchCryptoPrices` is `recoverWrap`, which turns a panic into a
  send on the errors channel. The scheduler-dependent arrival order of
  channel messages at the collection loop is an arbitrary permutation
  `arrivals` of the per-identifier outcomes; the collection loop itself
  is `collectOutcomes`.
-/

/-- The `CryptoPrice` domain entity (src/unnamed/part_000, lines 12-18). -/
structure CryptoPrice where
  ID : String
  Symbol : String
  Name : String
  CurrentPrice : Rat
  LastUpdated : String
deriving DecidableEq, Repr, Inhabited

/-- The `CryptoBatch` entity: a collection of `CryptoPrice` (part_000, lines 22-24). -/
structure CryptoBatch where
  Prices : List CryptoPrice
deriving DecidableEq, Repr, Inhabited

/-- `Validate` (part_000, lines 27-41): checks ID, Symbol, Name non-empty and
CurrentPrice non-negative, in that order; the timestamp is never inspected. -/
def CryptoPrice.Validate (c : CryptoPrice) : Except String Unit :=
  if c.ID = "" then Except.error "crypto ID cannot be empty"
  else if c.Symbol = "" then Except.error "crypto symbol cannot be empty"
  else if c.Name = "" then Except.error "crypto name cannot be empty"
  else if c.CurrentPrice < 0 then Except.error "crypto price cannot be negative"
  else Except.ok ()

/-- A UTC wall-clock time, the relevant fields of Go's `time.Time`. -/
structure GoTime where
  year : Nat
  month : Nat
  day : Nat
  hour : Nat
  minute : Nat
  second : Nat
deriving DecidableEq, Repr

/-- The ranges Go's `time.Now().UTC()` always satisfies (four-digit years
cover every present-day clock reading). -/
def GoTime.valid (t : GoTime) : Prop :=
  t.year ≤ 9999 ∧ 1 ≤ t.month ∧ t.month ≤ 12 ∧ 1 ≤ t.day ∧ t.day ≤ 31 ∧
    t.hour ≤ 23 ∧ t.minute ≤ 59 ∧ t.second ≤ 59

instance (t : GoTime) : Decidable t.valid := by
  unfold GoTime.valid; infer_instance

/-- Two-digit zero-padded decimal, as Go's time formatting produces. -/
def pad2 (n : Nat) : String :=
  String.mk [Nat.digitChar (n / 10), Nat.digitChar (n % 10)]

/-- Four-digit zero-padded decimal, as Go's time formatting produces. -/
def pad4 (n : Nat) : String :=
  String.mk [Nat.digitChar (n / 1000), Nat.digitChar (n / 100 % 10),
    Nat.digitChar (n / 10 % 10), Nat.digitChar (n % 10)]

/-- Go's `t.UTC().Format(time.RFC3339)`: layout `YYYY-MM-DDTHH:MM:SSZ`. -/
def rfc3339Format (t : GoTime) : String :=
  pad4 t.year ++ "-" ++ pad2 t.month ++ "-" ++ pad2 t.day ++ "T" ++
    pad2 t.hour ++ ":" ++ pad2 t.minute ++ ":" ++ pad2 t.second ++ "Z"

/-- Numeric value of a decimal digit character. -/
def dval (c : Char) : Nat := c.toNat - 48

/-- Checks that a character sequence parses under the RFC3339 date-time
grammar (seconds precision, `Z` offset): 20 characters, digits and fixed
separators in the right positions, and the calendar fields in range. -/
def isRFC3339Chars : List Char → Bool
  | [y1, y2, y3, y4, a1, mo1, mo2, a2, d1, d2, a3, h1, h2, a4, mi1, mi2, a5, se1, se2, a6] =>
    (a1 == '-') && (a2 == '-') && (a3 == 'T') && (a4 == ':') && (a5 == ':') && (a6 == 'Z') &&
    (y1.isDigit && y2.isDigit && y3.isDigit && y4.isDigit &&
      mo1.isDigit && mo2.isDigit && d1.isDigit && d2.isDigit &&
      h1.isDigit && h2.isDigit && mi1.isDigit && mi2.isDigit &&
      se1.isDigit && se2.isDigit) &&
    decide (1 ≤ dval mo1 * 10 + dval mo2) && decide (dval mo1 * 10 + dval mo2 ≤ 12) &&
    decide (1 ≤ dval d1 * 10 + dval d2) && decide (dval d1 * 10 + dval d2 ≤ 31) &&
    decide (dval h1 * 10 + dval h2 ≤ 23) && decide (dval mi1 * 10 + dval mi2 ≤ 59) &&
    decide (dval se1 * 10 + dval se2 ≤ 60)
  | _ => false

/-- Whether a string parses under the RFC3339 date-time grammar. -/
def isRFC3339 (s : String) : Bool := isRFC3339Chars s.data

/-- `UpdatePrice` (part_000, lines 44-51): rejects a negative price, leaving
the receiver untouched; otherwise sets the price and stamps the current UTC
time in RFC3339 format. The mutation of the receiver is modelled by
returning the new entity alongside the error slot. -/
def CryptoPrice.UpdatePrice (c : CryptoPrice) (newPrice : Rat) (now : GoTime) :
    CryptoPrice × Option String :=
  if newPrice < 0 then (c, some "price cannot be negative")
  else ({ c with CurrentPrice := newPrice, LastUpdated := rfc3339Format now }, none)

/-- `AddCrypto` (part_000, lines 54-56): append to the batch. -/
def CryptoBatch.AddCrypto (b : CryptoBatch) (crypto : CryptoPrice) : CryptoBatch :=
  { b with Prices := b.Prices ++ [crypto] }

/-- The loop body of `GetBySymbol`: scan the entries in order, returning the
first whose `Symbol` equals the argument, else the zero value and `false`. -/
def findBySymbol (symbol : String) : List CryptoPrice → CryptoPrice × Bool
  | [] => (⟨"", "", "", 0, ""⟩, false)
  | crypto :: rest =>
    if crypto.Symbol = symbol then (crypto, true) else findBySymbol symbol rest

/-- `GetBySymbol` (part_000, lines 59-66). -/
def CryptoBatch.GetBySymbol (b : CryptoBatch) (symbol : String) : CryptoPrice × Bool :=
  findBySymbol symbol b.Prices

/-- `TotalValue` (part_000, lines 69-75): sum of all current prices. -/
def CryptoBatch.TotalValue (b : CryptoBatch) : Rat :=
  b.Prices.foldl (fun total crypto => total + crypto.CurrentPrice) 0

/-- `GetPriceAt` (part_000, lines 89-94): panics (modelled as `Except.error`
carrying the panic message) when the index is negative or not below the
length; otherwise returns the element at that index. -/
def CryptoBatch.GetPriceAt (b : CryptoBatch) (index : Int) : Except String CryptoPrice :=
  if index < 0 ∨ (b.Prices.length : Int) ≤ index then
    Except.error ("index out of bounds: " ++ toString index)
  else
    match b.Prices.get? index.toNat with
    | some c => Except.ok c
    | none => Except.error ("index out of bounds: " ++ toString index)

/-- The outcome of one HTTP GET (coingecko.go): either the transport fails
(`httpClient.Get` returns an error) or a response arrives with a status code
and a body. The body is the outcome of decoding the response into the
target Go type: JSON decoding by the Go standard library is modelled by its
result. -/
inductive HttpResult (β : Type) where
  | transportError (msg : String)
  | response (status : Nat) (body : Except String β)

/-- The decoded form of Go's `map[string]map[string]float64`, as an
association list of association lists. -/
abbrev PriceJson := List (String × List (String × Rat))

/-- Go map indexing: the value at the key, or the zero value of the value
type when the key is absent. -/
def mapGet {β : Type} (m : List (String × β)) (key : String) (zero : β) : β :=
  match m.find? (fun kv => kv.1 == key) with
  | some kv => kv.2
  | none => zero

/-- What one goroutine of `FetchCryptoPrices` does before its deferred
`recover` runs: send a price on the results channel, send an error on the
errors channel, or panic. -/
inductive BodyOutcome where
  | sendResult (price : CryptoPrice)
  | sendError (err : String)
  | panicked (msg : String)
deriving DecidableEq, Repr

/-- The goroutine body of `FetchCryptoPrices` (coingecko.go, lines 37-71)
for one `cryptoID`, given the HTTP outcome for its request: a transport
error is sent on the errors channel; a status other than 200 panics with
`API returned status code: <status>`; a decode failure is sent on the
errors channel; otherwise the price record (ID, price looked up under
`data[cryptoID]["usd"]` with Go zero-value map indexing, fetch timestamp)
is sent on the results channel. The `Symbol` and `Name` fields are never
assigned and stay at their zero value. -/
def fetchWorkerBody (cryptoID : String) (now : GoTime)
    (resp : HttpResult PriceJson) : BodyOutcome :=
  match resp with
  | .transportError err => .sendError err
  | .response status body =>
    if status ≠ 200 then
      .panicked ("API returned status code: " ++ toString status)
    else
      match body with
      | .error err => .sendError err
      | .ok data =>
        .sendResult
          { ID := cryptoID
            Symbol := ""
            Name := ""
            CurrentPrice := mapGet (mapGet data cryptoID []) "usd" 0
            LastUpdated := rfc3339Format now }

/-- The deferred `recover` in each goroutine (coingecko.go, lines 39-43):
a panic is caught and re-sent on the errors channel as
`panic occurred: <panic value>`. The outcome delivered on a channel is
`Except.ok price` (results channel) or `Except.error err` (errors
channel). -/
def recoverWrap : BodyOutcome → Except String CryptoPrice
  | .sendResult price => Except.ok price
  | .sendError err => Except.error err
  | .panicked msg => Except.error ("panic occurred: " ++ msg)

/-- The outcome one goroutine of `FetchCryptoPrices` delivers for one
`cryptoID`: its body run under the deferred `recover`. -/
def fetchOutcome (cryptoID : String) (now : GoTime) (resp : HttpResult PriceJson) :
    Except String CryptoPrice :=
  recoverWrap (fetchWorkerBody cryptoID now resp)

/-- The collection loop of `FetchCryptoPrices` (coingecko.go, lines 75-84),
run over the channel messages in their arrival order: each success is
appended to the slice; the first error returns `nil, err` at once,
dropping the successes accumulated so far and never consuming the
remaining messages. -/
def collectOutcomes : List (Except String CryptoPrice) → Except String (List CryptoPrice)
  | [] => Except.ok []
  | Except.error err :: _ => Except.error err
  | Except.ok price :: rest =>
    match collectOutcomes rest with
    | Except.error err => Except.error err
    | Except.ok prices => Except.ok (price :: prices)

/-- The first error among the channel messages, in arrival order. -/
def firstErr (arrivals : List (Except String CryptoPrice)) : Option String :=
  arrivals.findSome? fun o =>
    match o with
    | Except.error err => some err
    | Except.ok _ => none

/-- A decoded market record of the top-N endpoint (`MarketData`,
coingecko.go, lines 89-95). -/
structure MarketData where
  ID : String
  Symbol : String
  Name : String
  Price : Rat
deriving DecidableEq, Repr

/-- `GetTopNCryptos` (coingecko.go, lines 98-127), given the HTTP outcome
of its single GET: a transport error is wrapped as
`failed to fetch top cryptos:`, a status other than 200 becomes
`API returned status code: <status>`, a decode failure is wrapped as
`failed to decode response:`, and otherwise each decoded market record is
mapped field-for-field to a `CryptoPrice` stamped with the fetch time. -/
def GetTopNCryptos (resp : HttpResult (List MarketData)) (now : GoTime) :
    Except String (List CryptoPrice) :=
  match resp with
  | .transportError err => Except.error ("failed to fetch top cryptos: " ++ err)
  | .response status body =>
    if status ≠ 200 then
      Except.error ("API returned status code: " ++ toString status)
    else
      match body with
      | .error err => Except.error ("failed to decode response: " ++ err)
      | .ok marketData =>
        Except.ok (marketData.map fun data =>
          { ID := data.ID
            Symbol := data.Symbol
            Name := data.Name
            CurrentPrice := data.Price
            LastUpdated := rfc3339Format now })

/-- C2: `Validate` returns no error iff ID, Symbol and Name are non-empty
and the price is non-negative; the `LastUpdated` timestamp is never
inspected, and violating any field constraint yields an error. -/
theorem Validate_ok_iff (c : CryptoPrice) :
    (c.Validate = Except.ok () ↔
      c.ID ≠ "" ∧ c.Symbol ≠ "" ∧ c.Name ≠ "" ∧ 0 ≤ c.CurrentPrice) ∧
    (∀ s : String, CryptoPrice.Validate { c with LastUpdated := s } = c.Validate) := by
  refine ⟨?_, fun s => rfl⟩
  unfold CryptoPrice.Validate
  split_ifs with h1 h2 h3 h4 <;> simp_all [not_lt]

/-- C7: `GetBySymbol` returns the first entry, in batch order, whose
`Symbol` field equals the argument (string equality, hence
case-sensitive) together with `true`; when no entry matches it returns
the zero-value entity and `false`. Duplicates are permitted: the result
is exactly the first match. -/
theorem GetBySymbol_first_match (b : CryptoBatch) (symbol : String) :
    b.GetBySymbol symbol =
      match b.Prices.find? (fun c => c.Symbol == symbol) with
      | some c => (c, true)
      | none => (⟨"", "", "", 0, ""⟩, false) := by
  show findBySymbol symbol b.Prices = _
  induction b.Prices with
  | nil => rfl
  | cons head tail ih =>
    by_cases h : head.Symbol = symbol
    · simp [findBySymbol, h, List.find?_cons]
    · simp [findBySymbol, h, List.find?_cons]
      exact ih

/-- C6: `GetPriceAt` panics (modelled as `Except.error`) exactly when the
index is negative or at least the batch length, and on an in-range index
returns the element at that position. -/
theorem GetPriceAt_panic_iff (b : CryptoBatch) (i : Int) :
    ((∃ msg, b.GetPriceAt i = Except.error msg) ↔
       i < 0 ∨ (b.Prices.length : Int) ≤ i) ∧
    (0 ≤ i → i < (b.Prices.length : Int) →
       ∃ h : i.toNat < b.Prices.length,
         b.GetPriceAt i = Except.ok (b.Prices.get ⟨i.toNat, h⟩)) := by
  constructor
  · constructor
    · rintro ⟨msg, hmsg⟩
      by_contra hn
      push_neg at hn
      obtain ⟨h1, h2⟩ := hn
      have hlt : i.toNat < b.Prices.length := by omega
      unfold CryptoBatch.GetPriceAt at hmsg
      rw [if_neg (by omega), List.get?_eq_get hlt] at hmsg
      exact Except.noConfusion hmsg
    · intro h
      exact ⟨_, by unfold CryptoBatch.GetPriceAt; rw [if_pos h]⟩
  · intro h1 h2
    have hlt : i.toNat < b.Prices.length := by omega
    refine ⟨hlt, ?_⟩
    unfold CryptoBatch.GetPriceAt
    rw [if_neg (by omega), List.get?_eq_get hlt]

/-- A concrete one-element batch for exercising the batch operations. -/
def sampleCrypto : CryptoPrice :=
  { ID := "bitcoin", Symbol := "btc", Name := "Bitcoin",
    CurrentPrice := 50000, LastUpdated := "2024-01-02T03:04:05Z" }

/-- Witness for C6: on the one-element batch, index 0 returns the element
and indices -1 and 1 panic. -/
theorem GetPriceAt_panic_iff_witness :
    CryptoBatch.GetPriceAt ⟨[sampleCrypto]⟩ 0 = Except.ok sampleCrypto ∧
    (∃ msg, CryptoBatch.GetPriceAt ⟨[sampleCrypto]⟩ (-1) = Except.error msg) ∧
    (∃ msg, CryptoBatch.GetPriceAt ⟨[sampleCrypto]⟩ 1 = Except.error msg) := by
  refine ⟨?_, ?_, ?_⟩
  · obtain ⟨h, heq⟩ :=
      (GetPriceAt_panic_iff ⟨[sampleCrypto]⟩ 0).2 (by decide) (by decide)
    exact heq
  · exact ((GetPriceAt_panic_iff ⟨[sampleCrypto]⟩ (-1)).1).2 (by decide)
  · exact ((GetPriceAt_panic_iff ⟨[sampleCrypto]⟩ 1).1).2 (by decide)

theorem digitChar_isDigit {n : Nat} (h : n < 10) : (Nat.digitChar n).isDigit = true := by
  interval_cases n <;> decide

theorem dval_digitChar {n : Nat} (h : n < 10) : dval (Nat.digitChar n) = n := by
  interval_cases n <;> decide

theorem data_rfc3339Format (t : GoTime) :
    (rfc3339Format t).data =
      [Nat.digitChar (t.year / 1000), Nat.digitChar (t.year / 100 % 10),
       Nat.digitChar (t.year / 10 % 10), Nat.digitChar (t.year % 10), '-',
       Nat.digitChar (t.month / 10), Nat.digitChar (t.month % 10), '-',
       Nat.digitChar (t.day / 10), Nat.digitChar (t.day % 10), 'T',
       Nat.digitChar (t.hour / 10), Nat.digitChar (t.hour % 10), ':',
       Nat.digitChar (t.minute / 10), Nat.digitChar (t.minute % 10), ':',
       Nat.digitChar (t.second / 10), Nat.digitChar (t.second % 10), 'Z'] := by
  simp [rfc3339Format, pad4, pad2, String.data_append]

/-- The timestamp Go's formatting produces for any valid clock reading is
accepted by the RFC3339 grammar check. -/
theorem isRFC3339_rfc3339Format {t : GoTime} (h : t.valid) :
    isRFC3339 (rfc3339Format t) = true := by
  obtain ⟨hy, hm1, hm2, hd1, hd2, hh, hmi, hse⟩ := h
  unfold isRFC3339
  rw [data_rfc3339Format]
  simp (disch := omega) only [isRFC3339Chars, dval_digitChar, digitChar_isDigit,
    Bool.and_eq_true, beq_self_eq_true, decide_eq_true_eq, and_true, true_and]
  omega

/-- C3: `UpdatePrice` with a negative price returns an error and leaves the
entity (hence both `CurrentPrice` and `LastUpdated`) unchanged; with a
non-negative price it returns no error, sets `CurrentPrice`, and sets
`LastUpdated` to a string parseable as RFC3339, for any valid clock
reading. -/
theorem UpdatePrice_spec (c : CryptoPrice) (p : Rat) (now : GoTime) (hnow : now.valid) :
    (p < 0 → c.UpdatePrice p now = (c, some "price cannot be negative")) ∧
    (0 ≤ p →
      (c.UpdatePrice p now).2 = none ∧
      (c.UpdatePrice p now).1.CurrentPrice = p ∧
      isRFC3339 ((c.UpdatePrice p now).1.LastUpdated) = true) := by
  constructor
  · intro hp
    unfold CryptoPrice.UpdatePrice
    rw [if_pos hp]
  · intro hp
    unfold CryptoPrice.UpdatePrice
    rw [if_neg (not_lt.mpr hp)]
    exact ⟨rfl, rfl, isRFC3339_rfc3339Format hnow⟩

/-- A concrete valid clock reading. -/
def sampleTime : GoTime := ⟨2024, 1, 2, 3, 4, 5⟩

/-- Witness for C3: a negative update on the sample entity is rejected
unchanged; an update to 51000 succeeds with an RFC3339 timestamp. -/
theorem UpdatePrice_spec_witness :
    sampleCrypto.UpdatePrice (-1) sampleTime = (sampleCrypto, some "price cannot be negative") ∧
    ((sampleCrypto.UpdatePrice 51000 sampleTime).2 = none ∧
      (sampleCrypto.UpdatePrice 51000 sampleTime).1.CurrentPrice = 51000 ∧
      isRFC3339 ((sampleCrypto.UpdatePrice 51000 sampleTime).1.LastUpdated) = true) :=
  ⟨(UpdatePrice_spec sampleCrypto (-1) sampleTime (by decide)).1 (by norm_num),
    (UpdatePrice_spec sampleCrypto 51000 sampleTime (by decide)).2 (by norm_num)⟩

theorem collectOutcomes_error_of_firstErr {arrivals : List (Except String CryptoPrice)}
    {e : String} (h : firstErr arrivals = some e) :
    collectOutcomes arrivals = Except.error e := by
  induction arrivals with
  | nil => simp [firstErr] at h
  | cons head tail ih =>
    cases head with
    | error err =>
      simp only [firstErr, List.findSome?_cons, Option.some.injEq] at h
      subst h
      rfl
    | ok p =>
      have h' : firstErr tail = some e := by
        simpa [firstErr, List.findSome?_cons] using h
      simp [collectOutcomes, ih h']

theorem collectOutcomes_of_firstErr_none {arrivals : List (Except String CryptoPrice)}
    (h : firstErr arrivals = none) :
    ∃ prices, collectOutcomes arrivals = Except.ok prices ∧
      prices.map Except.ok = arrivals := by
  induction arrivals with
  | nil => exact ⟨[], rfl, rfl⟩
  | cons head tail ih =>
    cases head with
    | error err => simp [firstErr, List.findSome?_cons] at h
    | ok p =>
      have h' : firstErr tail = none := by
        simpa [firstErr, List.findSome?_cons] using h
      obtain ⟨prices, h1, h2⟩ := ih h'
      exact ⟨p :: prices, by simp [collectOutcomes, h1], by simp [h2]⟩

theorem mem_of_collectOutcomes_ok {arrivals : List (Except String CryptoPrice)}
    {prices : List CryptoPrice} (h : collectOutcomes arrivals = Except.ok prices) :
    ∀ p ∈ prices, Except.ok p ∈ arrivals := by
  induction arrivals generalizing prices with
  | nil =>
    simp only [collectOutcomes, Except.ok.injEq] at h
    subst h
    simp
  | cons head tail ih =>
    cases head with
    | error err => simp [collectOutcomes] at h
    | ok q =>
      simp only [collectOutcomes] at h
      cases hc : collectOutcomes tail with
      | error e => rw [hc] at h; exact absurd h (by simp)
      | ok qs =>
        rw [hc] at h
        injection h with h
        subst h
        intro p hp
        rcases List.mem_cons.mp hp with h1 | h2
        · subst h1; exact List.mem_cons_self _ _
        · exact List.mem_cons_of_mem _ (ih hc p h2)

theorem collectOutcomes_error_of_mem {arrivals : List (Except String CryptoPrice)}
    {e : String} (h : Except.error e ∈ arrivals) :
    ∃ err, collectOutcomes arrivals = Except.error err := by
  induction arrivals with
  | nil => simp at h
  | cons head tail ih =>
    cases head with
    | error err => exact ⟨err, rfl⟩
    | ok p =>
      have h' : Except.error e ∈ tail := by simpa using h
      obtain ⟨err, herr⟩ := ih h'
      exact ⟨err, by simp [collectOutcomes, herr]⟩

/-- C1: over any scheduler-determined arrival order of the per-identifier
channel messages (a permutation of the per-identifier outcomes), the
collection loop of `FetchCryptoPrices` consumes one slot per identifier;
if an error is observed, the first one short-circuits the call, which
returns it with no price slice; if no error is observed, the call returns
exactly the per-identifier price records (in arrival order). -/
theorem FetchCryptoPrices_spec (env : String → HttpResult PriceJson) (now : GoTime)
    (ids : List String) (arrivals : List (Except String CryptoPrice))
    (hne : ids ≠ [])
    (hperm : arrivals.Perm (ids.map fun cryptoID => fetchOutcome cryptoID now (env cryptoID))) :
    arrivals.length = ids.length ∧
    (∀ e, firstErr arrivals = some e → collectOutcomes arrivals = Except.error e) ∧
    (firstErr arrivals = none →
      ∃ prices, collectOutcomes arrivals = Except.ok prices ∧
        (prices.map Except.ok).Perm
          (ids.map fun cryptoID => fetchOutcome cryptoID now (env cryptoID))) := by
  have _ := hne
  refine ⟨by simpa using hperm.length_eq, fun e he => collectOutcomes_error_of_firstErr he,
    fun h => ?_⟩
  obtain ⟨prices, h1, h2⟩ := collectOutcomes_of_firstErr_none h
  exact ⟨prices, h1, h2 ▸ hperm⟩

/-- An environment in which every request gets a 200 response whose body
decodes to a bitcoin price of 50000 USD. -/
def sampleEnv : String → HttpResult PriceJson := fun _ =>
  HttpResult.response 200 (Except.ok [("bitcoin", [("usd", 50000)])])

/-- The record the fetch produces for "bitcoin" under `sampleEnv`. -/
def bitcoinRecord : CryptoPrice :=
  ⟨"bitcoin", "", "", 50000, rfc3339Format sampleTime⟩

/-- Witness for C1: a single-identifier fetch under `sampleEnv`, with the
single success arriving, returns exactly that record. -/
theorem FetchCryptoPrices_spec_witness :
    collectOutcomes [Except.ok bitcoinRecord] = Except.ok [bitcoinRecord] := by
  obtain ⟨-, -, h3⟩ := FetchCryptoPrices_spec sampleEnv sampleTime ["bitcoin"]
    [Except.ok bitcoinRecord] (by simp)
    (by
      have h : (["bitcoin"].map fun cryptoID =>
          fetchOutcome cryptoID sampleTime (sampleEnv cryptoID)) =
          [Except.ok bitcoinRecord] := rfl
      rw [h])
  obtain ⟨prices, hc, hp⟩ := h3 rfl
  have hp' : (prices.map (Except.ok : CryptoPrice → Except String CryptoPrice)).Perm
      [Except.ok bitcoinRecord] := hp
  have hps := List.perm_singleton.mp hp'
  have : prices = [bitcoinRecord] := by
    cases prices with
    | nil => simp at hps
    | cons a l =>
      simp only [List.map_cons, List.cons.injEq, Except.ok.injEq,
        List.map_eq_nil_iff] at hps
      obtain ⟨rfl, rfl⟩ := hps
      rfl
  rw [this] at hc
  exact hc

/-- C4: a non-2xx status makes the goroutine body panic with the status
message, and the deferred recover converts the panic into an error value
delivered on the errors channel; whenever that outcome is among the
collected messages, the call returns an error rather than crashing. -/
theorem fetch_non2xx_recovered (cryptoID : String) (now : GoTime) (status : Nat)
    (body : Except String PriceJson) (h : status < 200 ∨ 300 ≤ status) :
    fetchWorkerBody cryptoID now (.response status body) =
      .panicked ("API returned status code: " ++ toString status) ∧
    fetchOutcome cryptoID now (.response status body) =
      Except.error ("panic occurred: " ++ ("API returned status code: " ++ toString status)) ∧
    (∀ arrivals, fetchOutcome cryptoID now (.response status body) ∈ arrivals →
      ∃ err, collectOutcomes arrivals = Except.error err) := by
  have h200 : status ≠ 200 := by omega
  have hbody : fetchWorkerBody cryptoID now (.response status body) =
      .panicked ("API returned status code: " ++ toString status) := by
    simp only [fetchWorkerBody]
    rw [if_pos h200]
  have hout : fetchOutcome cryptoID now (.response status body) =
      Except.error ("panic occurred: " ++ ("API returned status code: " ++ toString status)) := by
    unfold fetchOutcome
    rw [hbody]
    rfl
  refine ⟨hbody, hout, fun arrivals hmem => ?_⟩
  rw [hout] at hmem
  exact collectOutcomes_error_of_mem hmem

/-- Witness for C4: a 500 response yields the recovered panic error. -/
theorem fetch_non2xx_recovered_witness :
    fetchOutcome "bitcoin" sampleTime (.response 500 (Except.ok [])) =
      Except.error ("panic occurred: " ++ ("API returned status code: " ++ toString (500 : Nat))) :=
  (fetch_non2xx_recovered "bitcoin" sampleTime 500 (Except.ok []) (by omega)).2.1

/-- C8: the concrete scenarios of the repository tests. A single-ID fetch
whose response is 200 with a body decoding to a bitcoin price of 50000
returns exactly one record with ID "bitcoin" and price 50000; a 200
response whose body fails to decode returns an error (the fetch stays a
total function, it does not crash); a 500 response returns an error. -/
theorem fetch_concrete_cases :
    collectOutcomes [fetchOutcome "bitcoin" sampleTime
        (.response 200 (Except.ok [("bitcoin", [("usd", 50000)])]))] =
      Except.ok [⟨"bitcoin", "", "", 50000, rfc3339Format sampleTime⟩] ∧
    (∃ e, collectOutcomes [fetchOutcome "bitcoin" sampleTime
        (.response 200 (Except.error "invalid json"))] = Except.error e) ∧
    (∃ e, collectOutcomes [fetchOutcome "bitcoin" sampleTime
        (.response 500 (Except.ok []))] = Except.error e) :=
  ⟨rfl, ⟨"invalid json", rfl⟩, ⟨"panic occurred: " ++ ("API returned status code: " ++ toString (500 : Nat)), rfl⟩⟩

/-- C9: a 200 response whose body decodes to an object not containing the
requested identifier as a key, or whose inner object lacks the "usd" key,
still delivers a success record for that identifier, with price 0 (Go's
zero value on missing map keys) and no error. -/
theorem fetch_missing_key_zero_price (cryptoID : String) (now : GoTime) (data : PriceJson)
    (h : data.find? (fun kv => kv.1 == cryptoID) = none ∨
      ∀ kv, data.find? (fun kv2 => kv2.1 == cryptoID) = some kv →
        kv.2.find? (fun entry => entry.1 == "usd") = none) :
    fetchOutcome cryptoID now (.response 200 (Except.ok data)) =
      Except.ok ⟨cryptoID, "", "", 0, rfc3339Format now⟩ := by
  have hval : mapGet (mapGet data cryptoID []) "usd" 0 = 0 := by
    rcases h with h | h
    · simp [mapGet, h]
    · simp only [mapGet]
      cases hf : data.find? (fun kv => kv.1 == cryptoID) with
      | none => rfl
      | some kv => simp [h kv hf]
  simp only [fetchOutcome, fetchWorkerBody]
  rw [if_neg (by omega)]
  simp [recoverWrap, hval]

/-- Witness for C9: a body naming only ethereum yields a zero-price
bitcoin record and no error. -/
theorem fetch_missing_key_zero_price_witness :
    fetchOutcome "bitcoin" sampleTime
        (.response 200 (Except.ok [("ethereum", [("usd", 3000)])])) =
      Except.ok ⟨"bitcoin", "", "", 0, rfc3339Format sampleTime⟩ :=
  fetch_missing_key_zero_price "bitcoin" sampleTime [("ethereum", [("usd", 3000)])]
    (Or.inl rfl)

theorem fetchOutcome_ok {cryptoID : String} {now : GoTime} {resp : HttpResult PriceJson}
    {p : CryptoPrice} (h : fetchOutcome cryptoID now resp = Except.ok p) :
    fetchWorkerBody cryptoID now resp = .sendResult p := by
  unfold fetchOutcome at h
  cases hb : fetchWorkerBody cryptoID now resp with
  | sendResult q =>
    rw [hb] at h
    simp only [recoverWrap, Except.ok.injEq] at h
    rw [h]
  | sendError e =>
    rw [hb] at h
    simp [recoverWrap] at h
  | panicked m =>
    rw [hb] at h
    simp [recoverWrap] at h

theorem fetchWorkerBody_sendResult {cryptoID : String} {now : GoTime}
    {resp : HttpResult PriceJson} {q : CryptoPrice}
    (h : fetchWorkerBody cryptoID now resp = .sendResult q) :
    q.Symbol = "" ∧ q.Name = "" := by
  cases resp with
  | transportError e => exact absurd h (by simp [fetchWorkerBody])
  | response status body =>
    simp only [fetchWorkerBody] at h
    by_cases hs : status ≠ 200
    · rw [if_pos hs] at h
      exact absurd h (by simp)
    · rw [if_neg hs] at h
      cases body with
      | error e => exact absurd h (by simp)
      | ok data =>
        simp only [BodyOutcome.sendResult.injEq] at h
        rw [← h]
        exact ⟨rfl, rfl⟩

theorem validate_error_of_empty_symbol {p : CryptoPrice} (h : p.Symbol = "") :
    ∃ e, p.Validate = Except.error e := by
  unfold CryptoPrice.Validate
  by_cases hid : p.ID = ""
  · rw [if_pos hid]
    exact ⟨_, rfl⟩
  · rw [if_neg hid, if_pos h]
    exact ⟨_, rfl⟩

/-- C10: every record a successful `FetchCryptoPrices` call returns was
produced by a goroutine body that never assigns `Symbol` or `Name`, so
both are empty and the record fails the domain `Validate` check. -/
theorem fetch_records_fail_validate (env : String → HttpResult PriceJson) (now : GoTime)
    (ids : List String) (arrivals : List (Except String CryptoPrice))
    (prices : List CryptoPrice)
    (hperm : arrivals.Perm (ids.map fun cryptoID => fetchOutcome cryptoID now (env cryptoID)))
    (hok : collectOutcomes arrivals = Except.ok prices) :
    ∀ p ∈ prices, p.Symbol = "" ∧ p.Name = "" ∧ ∃ e, p.Validate = Except.error e := by
  intro p hp
  have hmem : Except.ok p ∈ arrivals := mem_of_collectOutcomes_ok hok p hp
  have hmem2 : Except.ok p ∈ ids.map (fun cryptoID => fetchOutcome cryptoID now (env cryptoID)) :=
    hperm.subset hmem
  obtain ⟨cryptoID, _, hfe⟩ := List.mem_map.mp hmem2
  obtain ⟨hsym, hname⟩ := fetchWorkerBody_sendResult (fetchOutcome_ok hfe)
  exact ⟨hsym, hname, validate_error_of_empty_symbol hsym⟩

/-- Witness for C10: the record of the single-ID fetch under `sampleEnv`
has empty Symbol and Name and fails `Validate`. -/
theorem fetch_records_fail_validate_witness :
    bitcoinRecord.Symbol = "" ∧ bitcoinRecord.Name = "" ∧
      ∃ e, bitcoinRecord.Validate = Except.error e := by
  refine fetch_records_fail_validate sampleEnv sampleTime ["bitcoin"]
    [Except.ok bitcoinRecord] [bitcoinRecord] ?_ rfl bitcoinRecord (by simp)
  have h : (["bitcoin"].map fun cryptoID =>
      fetchOutcome cryptoID sampleTime (sampleEnv cryptoID)) =
      [Except.ok bitcoinRecord] := rfl
  rw [h]

/-- C5 amended: `GetTopNCryptos` fails with a wrapped error on transport
failure, on any status other than 200 (not only non-2xx statuses), and on
decode failure; otherwise it returns one `CryptoPrice` per decoded market
record, mapping id, symbol, name and price field-for-field and stamping
the fetch time. -/
theorem GetTopNCryptos_spec (now : GoTime) :
    (∀ e, GetTopNCryptos (.transportError e) now =
      Except.error ("failed to fetch top cryptos: " ++ e)) ∧
    (∀ (status : Nat) (body : Except String (List MarketData)), status ≠ 200 →
      GetTopNCryptos (.response status body) now =
        Except.error ("API returned status code: " ++ toString status)) ∧
    (∀ e, GetTopNCryptos (.response 200 (Except.error e)) now =
      Except.error ("failed to decode response: " ++ e)) ∧
    (∀ marketData, GetTopNCryptos (.response 200 (Except.ok marketData)) now =
      Except.ok (marketData.map fun data =>
        ⟨data.ID, data.Symbol, data.Name, data.Price, rfc3339Format now⟩)) := by
  refine ⟨fun e => rfl, fun status body h => ?_, fun e => rfl, fun marketData => rfl⟩
  simp only [GetTopNCryptos]
  rw [if_pos h]

/-- Witness for C5 (amended): a 500 response yields the status error. -/
theorem GetTopNCryptos_spec_witness :
    GetTopNCryptos (.response 500 (Except.ok ([] : List MarketData))) sampleTime =
      Except.error ("API returned status code: " ++ toString (500 : Nat)) :=
  (GetTopNCryptos_spec sampleTime).2.1 500 (Except.ok []) (by omega)

/-- Counterexample to C5 as stated: a 201 response is a 2xx status with a
decodable body, so the claim predicts the per-record success result (here
the empty list), but the code rejects every status other than 200 and
returns a status error. -/
theorem GetTopNCryptos_claim_counterexample :
    GetTopNCryptos (.response 201 (Except.ok ([] : List MarketData))) sampleTime =
      Except.error ("API returned status code: " ++ toString (201 : Nat)) ∧
    GetTopNCryptos (.response 201 (Except.ok ([] : List MarketData))) sampleTime ≠
      Except.ok [] := by
  constructor
  · rfl
  · intro h
    rw [show GetTopNCryptos (.response 201 (Except.ok ([] : List MarketData))) sampleTime =
      Except.error ("API returned status code: " ++ toString (201 : Nat)) from rfl] at h
    exact Except.noConfusion h
